import Mathlib

/-!
Verification of the employee-identity synchronization subsystem of the
HRMS Attendance Management Service.

The development shallowly embeds the Python sources:

* `app/core/handlers/employee_handlers.py` — the six employee lifecycle
  event handlers, `_parse_date`, and `register_employee_handlers`;
* `app/core/employee_service.py` — `EmployeeValidationService`;
* `app/api/clients/employee_service.py` — `EmployeeServiceClient`;
* `app/models/employee.py` — the `EmployeeCache` table.

The storage engine (`app/core/database.py`) is not part of the sources, so
the Employee Cache Store is modelled from the specification (section 3 and
section 4.1): a table keyed by `id`, with `email` unique among non-deleted
records, where a commit that violates a constraint raises and leaves the
table unchanged.  Wall-clock instants produced by `datetime.utcnow()` are
abstracted as a `Nat` parameter `now`; each handler run uses one instant.
Exceptions are reified: a function that Python lets raise is `Option`-valued
or takes an outcome argument, and the `try/except` blocks of the source
become the corresponding `match`es.
-/

/-! ## Model of the Python `datetime` collaborators

`_parse_date` in `employee_handlers.py` delegates to
`datetime.fromisoformat` (after `date_value.replace("Z", "+00:00")`) and to
`datetime.strptime(date_value, "%Y-%m-%d")`.  These stdlib collaborators are
modelled below: `fromisoCore` follows CPython's C implementation of
`fromisoformat` (date `YYYY-MM-DD`, a single arbitrary separator character,
time `HH[:MM[:SS[.fff[fff]]]]`, optional timezone `±HH:MM[:SS[.ffffff]]`
starting at the first `+`/`-` of the time part, all digits strict ASCII),
and `strptimeYmd` follows the `_strptime` regex for `%Y-%m-%d`
(`\d{4}`, then `1[0-2]|0[1-9]|[1-9]`, then `3[01]|[12]\d|0[1-9]|[1-9]`,
anchored at both ends).  Both validate the resulting calendar date the way
the `datetime` constructor does and return `none` where Python raises
`ValueError`. -/

/-- A Python `datetime` value: calendar fields plus an optional fixed
timezone offset in microseconds (`none` = naive). -/
structure PyDateTime where
  year : Nat
  month : Nat
  day : Nat
  hour : Nat
  minute : Nat
  second : Nat
  microsecond : Nat
  tzOffsetMicros : Option Int
  deriving DecidableEq, Repr

/-- Leap-year test, as in `calendar.isleap` / the `datetime` module. -/
def isLeapYear (y : Nat) : Bool :=
  y % 4 == 0 && (y % 100 != 0 || y % 400 == 0)

/-- Days in a month, as used by the `datetime` constructor's validation. -/
def daysInMonth (y m : Nat) : Nat :=
  if m == 2 then (if isLeapYear y then 29 else 28)
  else if m == 4 || m == 6 || m == 9 || m == 11 then 30
  else 31

/-- Range validation of the `datetime(year, month, day, ...)` constructor;
`none` models the `ValueError` it raises on out-of-range components. -/
def mkDatetime (y m d h mi s f : Nat) (tz : Option Int) : Option PyDateTime :=
  if 1 ≤ y ∧ y ≤ 9999 ∧ 1 ≤ m ∧ m ≤ 12 ∧ 1 ≤ d ∧ d ≤ daysInMonth y m ∧
     h ≤ 23 ∧ mi ≤ 59 ∧ s ≤ 59 ∧ f ≤ 999999 then
    some ⟨y, m, d, h, mi, s, f, tz⟩
  else none

/-- Value of an ASCII digit character, `none` otherwise (CPython's
`parse_digits` accepts strict ASCII digits only). -/
def digitVal (c : Char) : Option Nat :=
  if c.isDigit then some (c.toNat - 48) else none

/-- Parse a non-empty, all-digit character list as a decimal number. -/
def parseNatDigits : List Char → Option Nat
  | [] => none
  | cs => cs.foldl (fun acc c => do
      let a ← acc
      let d ← digitVal c
      pure (a * 10 + d)) (some 0)

/-- The date part of `fromisoformat`: exactly `YYYY-MM-DD`. -/
def parseIsoDate : List Char → Option (Nat × Nat × Nat)
  | [y1, y2, y3, y4, s1, m1, m2, s2, d1, d2] =>
    if s1 = '-' ∧ s2 = '-' then do
      let y ← parseNatDigits [y1, y2, y3, y4]
      let m ← parseNatDigits [m1, m2]
      let d ← parseNatDigits [d1, d2]
      pure (y, m, d)
    else none
  | _ => none

/-- CPython's `parse_hh_mm_ss_ff`: `HH[:MM[:SS[.fff[fff]]]]`, with the
three-digit fraction scaled to microseconds. -/
def parseHMSF : List Char → Option (Nat × Nat × Nat × Nat)
  | [h1, h2] => do
    let h ← parseNatDigits [h1, h2]
    pure (h, 0, 0, 0)
  | [h1, h2, a, m1, m2] =>
    if a = ':' then do
      let h ← parseNatDigits [h1, h2]
      let m ← parseNatDigits [m1, m2]
      pure (h, m, 0, 0)
    else none
  | [h1, h2, a, m1, m2, b, s1, s2] =>
    if a = ':' ∧ b = ':' then do
      let h ← parseNatDigits [h1, h2]
      let m ← parseNatDigits [m1, m2]
      let s ← parseNatDigits [s1, s2]
      pure (h, m, s, 0)
    else none
  | [h1, h2, a, m1, m2, b, s1, s2, p, f1, f2, f3] =>
    if a = ':' ∧ b = ':' ∧ p = '.' then do
      let h ← parseNatDigits [h1, h2]
      let m ← parseNatDigits [m1, m2]
      let s ← parseNatDigits [s1, s2]
      let f ← parseNatDigits [f1, f2, f3]
      pure (h, m, s, f * 1000)
    else none
  | [h1, h2, a, m1, m2, b, s1, s2, p, f1, f2, f3, f4, f5, f6] =>
    if a = ':' ∧ b = ':' ∧ p = '.' then do
      let h ← parseNatDigits [h1, h2]
      let m ← parseNatDigits [m1, m2]
      let s ← parseNatDigits [s1, s2]
      let f ← parseNatDigits [f1, f2, f3, f4, f5, f6]
      pure (h, m, s, f)
    else none
  | _ => none

/-- CPython's `parse_isoformat_time`: the timezone starts at the first
`+`/`-`; the offset substring after the sign must have length 5, 8 or 15
and itself parse as `HH:MM[:SS[.ffffff]]`; an all-zero offset is UTC; a
non-zero offset must be strictly within ±24 hours (else `timezone(...)`
raises). -/
def parseIsoTime (cs : List Char) : Option (Nat × Nat × Nat × Nat × Option Int) := do
  let t ← match cs.findIdx? (fun c => c = '+' ∨ c = '-') with
    | none => do
      let t ← parseHMSF cs
      pure (t.1, t.2.1, t.2.2.1, t.2.2.2, (none : Option Int))
    | some i => do
      let t ← parseHMSF (cs.take i)
      let tzstr := cs.drop (i + 1)
      if tzstr.length = 5 ∨ tzstr.length = 8 ∨ tzstr.length = 15 then do
        let tz ← parseHMSF tzstr
        let sign : Int := if cs.get? i = some '-' then -1 else 1
        let total : Int :=
          sign * (((tz.1 * 3600 + tz.2.1 * 60 + tz.2.2.1) * 1000000 : Nat) + tz.2.2.2)
        if tz.1 = 0 ∧ tz.2.1 = 0 ∧ tz.2.2.1 = 0 ∧ tz.2.2.2 = 0 then
          pure (t.1, t.2.1, t.2.2.1, t.2.2.2, some 0)
        else if -(86400000000 : Int) < total ∧ total < 86400000000 then
          pure (t.1, t.2.1, t.2.2.1, t.2.2.2, some total)
        else none
      else none
  pure t

/-- CPython's `datetime.fromisoformat`: the first 10 characters are the
date; if anything follows, the character at index 10 is skipped as the
separator and the rest must be a non-empty valid time part. -/
def fromisoCore (cs : List Char) : Option PyDateTime := do
  let (y, m, d) ← parseIsoDate (cs.take 10)
  let tstr := cs.drop 11
  if cs.length ≤ 10 then
    mkDatetime y m d 0 0 0 0 none
  else
    match parseIsoTime tstr with
    | some (h, mi, s, f, tz) => mkDatetime y m d h mi s f tz
    | none => none

/-- String-level entry point of the `fromisoformat` model. -/
def fromisoformat (s : String) : Option PyDateTime :=
  fromisoCore s.toList

/-- Model of `date_value.replace("Z", "+00:00")`: the pattern is a single
character, so every `Z` is replaced. -/
def replaceZList : List Char → List Char
  | [] => []
  | c :: rest =>
    if c = 'Z' then '+' :: '0' :: '0' :: ':' :: '0' :: '0' :: replaceZList rest
    else c :: replaceZList rest

/-- String-level wrapper of `replaceZList`. -/
def pyReplaceZ (s : String) : String :=
  ⟨replaceZList s.toList⟩

/-- Month alternatives of the `%m` regex `1[0-2]|0[1-9]|[1-9]`, in
alternation order, each with the remaining input. -/
def monthAlt (cs : List Char) : List (Nat × List Char) :=
  (match cs with
    | '1' :: c :: rest =>
      if '0' ≤ c ∧ c ≤ '2' then [(10 + (c.toNat - 48), rest)] else []
    | _ => []) ++
  (match cs with
    | '0' :: c :: rest =>
      if '1' ≤ c ∧ c ≤ '9' then [(c.toNat - 48, rest)] else []
    | _ => []) ++
  (match cs with
    | c :: rest =>
      if '1' ≤ c ∧ c ≤ '9' then [(c.toNat - 48, rest)] else []
    | _ => [])

/-- Day alternatives of the `%d` regex `3[01]|[12]\d|0[1-9]|[1-9]`, in
alternation order, each with the remaining input. -/
def dayAlt (cs : List Char) : List (Nat × List Char) :=
  (match cs with
    | '3' :: c :: rest =>
      if '0' ≤ c ∧ c ≤ '1' then [(30 + (c.toNat - 48), rest)] else []
    | _ => []) ++
  (match cs with
    | c1 :: c2 :: rest =>
      if ('1' ≤ c1 ∧ c1 ≤ '2') ∧ c2.isDigit then
        [((c1.toNat - 48) * 10 + (c2.toNat - 48), rest)]
      else []
    | _ => []) ++
  (match cs with
    | '0' :: c :: rest =>
      if '1' ≤ c ∧ c ≤ '9' then [(c.toNat - 48, rest)] else []
    | _ => []) ++
  (match cs with
    | c :: rest =>
      if '1' ≤ c ∧ c ≤ '9' then [(c.toNat - 48, rest)] else []
    | _ => [])

/-- Model of `datetime.strptime(s, "%Y-%m-%d")`: the `_strptime` regex
(4-digit year, the `%m`/`%d` alternations with backtracking, nothing left
over), followed by the `datetime` constructor's validation. -/
def strptimeYmd (s : String) : Option PyDateTime :=
  match s.toList with
  | y1 :: y2 :: y3 :: y4 :: '-' :: rest =>
    match parseNatDigits [y1, y2, y3, y4] with
    | none => none
    | some y =>
      (monthAlt rest).findSome? fun mr =>
        match mr.2 with
        | '-' :: rest2 =>
          (dayAlt rest2).findSome? fun dr =>
            if dr.2 = [] then mkDatetime y mr.1 dr.1 0 0 0 0 none else none
        | _ => none
  | _ => none

/-- A value drawn from an event's `data` mapping where a date is expected:
JSON `null`, a string, an actual `datetime` object, or anything else. -/
inductive PyDateInput where
  | pynone
  | pystr (s : String)
  | pydatetime (d : PyDateTime)
  | pyother
  deriving DecidableEq, Repr

/-- `_parse_date` of `employee_handlers.py`.  The second component records
whether `logger.warning` was called (only on a string neither parser
accepts).  `None`, `datetime` instances and non-string values never raise
and never warn; a string is tried against `fromisoformat` after the
`Z → +00:00` replacement, then against `strptime("%Y-%m-%d")`. -/
def _parse_date (v : PyDateInput) : Option PyDateTime × Bool :=
  match v with
  | .pynone => (none, false)
  | .pydatetime d => (some d, false)
  | .pystr s =>
    match fromisoformat (pyReplaceZ s) with
    | some d => (some d, false)
    | none =>
      match strptimeYmd s with
      | some d => (some d, false)
      | none => (none, true)
  | .pyother => (none, false)

/-! ## Data model: the Employee Cache Store

`EmployeeCache` mirrors `app/models/employee.py` (the `employee_cache`
table): integer primary key `id`, optional `user_id`, `email` declared
`unique=True`, the profile fields, `status` and the three timestamps.
Timestamps are abstract instants (`Nat`). -/

/-- A row of the `employee_cache` table (`app/models/employee.py`). -/
structure EmployeeCache where
  id : Int
  user_id : Option Int
  email : String
  first_name : String
  last_name : String
  full_name : String
  role : String
  job_title : String
  department : Option String
  team : Option String
  manager_id : Option Int
  employment_type : String
  status : String
  joining_date : Option PyDateTime
  created_at : Nat
  updated_at : Nat
  synced_at : Nat
  deriving DecidableEq, Repr

/-- The cache table, in row order. -/
abbrev Store := List EmployeeCache

/-- `session.get(EmployeeCache, employee_id)`: point lookup by primary key. -/
def getById (σ : Store) (i : Int) : Option EmployeeCache :=
  σ.find? (fun r => r.id == i)

/-- `session.exec(select(EmployeeCache).where(email == e)).first()`. -/
def getByEmail (σ : Store) (e : String) : Option EmployeeCache :=
  σ.find? (fun r => r.email == e)

/-- Modelled from the spec: the storage engine (`app/core/database.py`) is
not among the sources; per section 3, "`email` is unique among all
non-deleted records (uniqueness enforced at the store level; behavior on
email collision during update ... treat as error)".  `emailFree σ i e` is
the store-level constraint check for writing email `e` into the row keyed
`i`: no non-deleted row other than `i` may already hold `e`. -/
def emailFree (σ : Store) (i : Int) (e : String) : Bool :=
  σ.all (fun r => r.id == i || r.status == "deleted" || r.email != e)

/-- Modelled from the spec: committing a freshly added row (`session.add`
of a new record + `session.commit()`).  The primary-key and
email-uniqueness constraints are checked; a violation raises
`IntegrityError` (`none`) and the rolled-back transaction leaves the table
unchanged. -/
def insertRow (σ : Store) (r : EmployeeCache) : Option Store :=
  if (getById σ r.id).isNone && emailFree σ r.id r.email then some (σ ++ [r])
  else none

/-- Committing field mutations of a fetched row: SQL
`UPDATE ... WHERE id = r.id`, writing the assigned columns. -/
def updateRow (σ : Store) (r : EmployeeCache) : Store :=
  σ.map (fun x => if x.id == r.id then r else x)

/-- Modelled from the spec: committing a mutation that assigned the `email`
attribute (the ORM includes exactly the assigned columns in the `UPDATE`,
so the uniqueness constraint is checked there); on violation the commit
raises and the table is unchanged (`none`). -/
def updateRowEmailChecked (σ : Store) (r : EmployeeCache) : Option Store :=
  if emailFree σ r.id r.email then some (updateRow σ r) else none

/-! ## Event payloads

An inbound message body is `{"data": {"employee_id": <int>, ...}}`; the
handlers read fields with `dict.get`, so every field is optional.  Values
are typed by the schema of the upstream events: identifier fields are
integers, profile fields strings, with `department`/`team`/`manager_id`/
`user_id` nullable inside `updated_fields`. -/

/-- The `updated_fields` change-set of an `employee-updated` event: for
each handled key, `none` means "key absent" and `some v` means "key
present with value `v`" (the nullable columns carry an inner `Option`). -/
structure UpdatedFields where
  email : Option String := none
  first_name : Option String := none
  last_name : Option String := none
  role : Option String := none
  job_title : Option String := none
  department : Option (Option String) := none
  team : Option (Option String) := none
  manager_id : Option (Option Int) := none
  employment_type : Option String := none
  status : Option String := none
  user_id : Option (Option Int) := none
  deriving DecidableEq, Repr

/-- The nested `data` mapping of an event; `none` throughout means "key
absent" (for `joining_date`, absence and JSON `null` coincide on
`.pynone`, exactly as `data.get("joining_date")` yields `None`). -/
structure EventData where
  employee_id : Option Int := none
  user_id : Option Int := none
  email : Option String := none
  first_name : Option String := none
  last_name : Option String := none
  role : Option String := none
  job_title : Option String := none
  department : Option String := none
  team : Option String := none
  manager_id : Option Int := none
  employment_type : Option String := none
  joining_date : PyDateInput := .pynone
  updated_fields : UpdatedFields := {}
  deriving DecidableEq, Repr

/-- A deserialized event body; `event_data.get("data", {})` yields an empty
mapping when the `data` key is absent. -/
structure Event where
  data : Option EventData
  deriving DecidableEq, Repr

/-- The `data` mapping of an event, defaulting to empty. -/
def Event.getData (e : Event) : EventData :=
  e.data.getD {}

/-- The `if not employee_id:` guard of every handler: Python truthiness on
the optional integer, so both a missing key and the value `0` fail it. -/
def truthyId (x : Option Int) : Option Int :=
  match x with
  | none => none
  | some i => if i = 0 then none else some i

/-- Python's `str.strip()` as used in `f"{first} {last}".strip()`. -/
def pyStrip (s : String) : String :=
  s.trim

/-! ## Event ingestion handlers (`app/core/handlers/employee_handlers.py`)

Every handler takes the deserialized event, the current instant and the
table, and returns the table after the run; its outer `try/except` turns
any storage error into "log and return", so a failed commit yields the
unchanged table. -/

/-- Kafka topic name for employee creation events. -/
def EMPLOYEE_CREATED_TOPIC : String := "employee-created"

/-- Kafka topic name for employee update events. -/
def EMPLOYEE_UPDATED_TOPIC : String := "employee-updated"

/-- Kafka topic name for employee deletion events. -/
def EMPLOYEE_DELETED_TOPIC : String := "employee-deleted"

/-- Kafka topic name for employee termination events. -/
def EMPLOYEE_TERMINATED_TOPIC : String := "employee-terminated"

/-- Kafka topic name for employee suspension events. -/
def EMPLOYEE_SUSPENDED_TOPIC : String := "employee-suspended"

/-- Kafka topic name for employee activation events. -/
def EMPLOYEE_ACTIVATED_TOPIC : String := "employee-activated"

/-- `handle_employee_created`: guard on a truthy `employee_id`; if the id
is already cached, overwrite the fields in place (with a warning log);
otherwise insert a fresh row with `status="active"`. -/
def handle_employee_created (ev : Event) (now : Nat) (σ : Store) : Store :=
  let data := ev.getData
  match truthyId data.employee_id with
  | none => σ
  | some employee_id =>
    let email := data.email.getD ""
    let first_name := data.first_name.getD ""
    let last_name := data.last_name.getD ""
    let full_name := pyStrip (first_name ++ " " ++ last_name)
    match getById σ employee_id with
    | some existing =>
      let r := { existing with
        user_id := data.user_id
        email := email
        first_name := first_name
        last_name := last_name
        full_name := full_name
        role := data.role.getD "employee"
        job_title := data.job_title.getD ""
        department := data.department
        team := data.team
        manager_id := data.manager_id
        employment_type := data.employment_type.getD "permanent"
        status := "active"
        joining_date := (_parse_date data.joining_date).1
        updated_at := now
        synced_at := now }
      match updateRowEmailChecked σ r with
      | some σ' => σ'
      | none => σ
    | none =>
      let r : EmployeeCache := {
        id := employee_id
        user_id := data.user_id
        email := email
        first_name := first_name
        last_name := last_name
        full_name := full_name
        role := data.role.getD "employee"
        job_title := data.job_title.getD ""
        department := data.department
        team := data.team
        manager_id := data.manager_id
        employment_type := data.employment_type.getD "permanent"
        status := "active"
        joining_date := (_parse_date data.joining_date).1
        created_at := now
        updated_at := now
        synced_at := now }
      match insertRow σ r with
      | some σ' => σ'
      | none => σ

/-- The `if "k" in updated_fields:` mutation block of
`handle_employee_updated`, as the net effect on the fetched row: each
handled key present in the change-set overwrites its column (`getD` keeps
the prior value when the key is absent), and `full_name` is recomputed
from the resulting name components exactly when `first_name` or
`last_name` is present in the change-set.  The attribute-by-attribute
Python statements commute, so this simultaneous update is their exact
composition. -/
def applyUpdatedFields (uf : UpdatedFields) (e : EmployeeCache) : EmployeeCache :=
  let fn := uf.first_name.getD e.first_name
  let ln := uf.last_name.getD e.last_name
  { e with
    email := uf.email.getD e.email
    first_name := fn
    last_name := ln
    full_name :=
      if uf.first_name.isSome || uf.last_name.isSome then pyStrip (fn ++ " " ++ ln)
      else e.full_name
    role := uf.role.getD e.role
    job_title := uf.job_title.getD e.job_title
    department := uf.department.getD e.department
    team := uf.team.getD e.team
    manager_id := uf.manager_id.getD e.manager_id
    employment_type := uf.employment_type.getD e.employment_type
    status := uf.status.getD e.status
    user_id := uf.user_id.getD e.user_id }

/-- `handle_employee_updated`: guard on a truthy `employee_id`.  If the id
is not cached, a "recovery create" is attempted from the top-level `data`
fields (requiring non-empty `email`, `first_name`, `last_name`, with
`joining_date=None` and `job_title` defaulting to `"Unknown"`); otherwise
exactly the keys present in `updated_fields` are applied to the row,
`full_name` being recomputed when either name component is present, and
`updated_at`/`synced_at` refreshed. -/
def handle_employee_updated (ev : Event) (now : Nat) (σ : Store) : Store :=
  let data := ev.getData
  match truthyId data.employee_id with
  | none => σ
  | some employee_id =>
    match getById σ employee_id with
    | none =>
      let email := data.email.getD ""
      let first_name := data.first_name.getD ""
      let last_name := data.last_name.getD ""
      if email ≠ "" ∧ first_name ≠ "" ∧ last_name ≠ "" then
        let r : EmployeeCache := {
          id := employee_id
          user_id := data.user_id
          email := email
          first_name := first_name
          last_name := last_name
          full_name := pyStrip (first_name ++ " " ++ last_name)
          role := data.role.getD "employee"
          job_title := data.job_title.getD "Unknown"
          department := data.department
          team := data.team
          manager_id := data.manager_id
          employment_type := data.employment_type.getD "permanent"
          status := "active"
          joining_date := none
          created_at := now
          updated_at := now
          synced_at := now }
        match insertRow σ r with
        | some σ' => σ'
        | none => σ
      else σ
    | some employee =>
      let uf := data.updated_fields
      let e11 := { applyUpdatedFields uf employee with updated_at := now, synced_at := now }
      if uf.email.isSome then
        match updateRowEmailChecked σ e11 with
        | some σ' => σ'
        | none => σ
      else updateRow σ e11

/-- `handle_employee_deleted`: soft delete — if the id (truthy) is cached,
set `status="deleted"` and refresh `updated_at`/`synced_at`, touching
nothing else; the `UPDATE` writes no constrained column, so the commit
cannot fail. -/
def handle_employee_deleted (ev : Event) (now : Nat) (σ : Store) : Store :=
  let data := ev.getData
  match truthyId data.employee_id with
  | none => σ
  | some employee_id =>
    match getById σ employee_id with
    | none => σ
    | some employee =>
      updateRow σ { employee with status := "deleted", updated_at := now, synced_at := now }

/-- `handle_employee_terminated`: as `handle_employee_deleted`, writing
`status="terminated"`. -/
def handle_employee_terminated (ev : Event) (now : Nat) (σ : Store) : Store :=
  let data := ev.getData
  match truthyId data.employee_id with
  | none => σ
  | some employee_id =>
    match getById σ employee_id with
    | none => σ
    | some employee =>
      updateRow σ { employee with status := "terminated", updated_at := now, synced_at := now }

/-- `handle_employee_suspended`: as `handle_employee_deleted`, writing
`status="suspended"`. -/
def handle_employee_suspended (ev : Event) (now : Nat) (σ : Store) : Store :=
  let data := ev.getData
  match truthyId data.employee_id with
  | none => σ
  | some employee_id =>
    match getById σ employee_id with
    | none => σ
    | some employee =>
      updateRow σ { employee with status := "suspended", updated_at := now, synced_at := now }

/-- `handle_employee_activated`: as `handle_employee_deleted`, writing
`status="active"`. -/
def handle_employee_activated (ev : Event) (now : Nat) (σ : Store) : Store :=
  let data := ev.getData
  match truthyId data.employee_id with
  | none => σ
  | some employee_id =>
    match getById σ employee_id with
    | none => σ
    | some employee =>
      updateRow σ { employee with status := "active", updated_at := now, synced_at := now }

/-- Tags naming the six handler functions, for the registration table. -/
inductive EmployeeHandlerTag where
  | created
  | updated
  | deleted
  | terminated
  | suspended
  | activated
  deriving DecidableEq, Repr

/-- `register_employee_handlers`: with Kafka disabled nothing is
registered; otherwise the function issues exactly four
`KafkaConsumer.register_handler(topic, handler)` calls, returned here as
the (topic, handler) registration list in call order. -/
def register_employee_handlers (kafkaEnabled : Bool) : List (String × EmployeeHandlerTag) :=
  if !kafkaEnabled then []
  else
    [(EMPLOYEE_CREATED_TOPIC, .created),
     (EMPLOYEE_UPDATED_TOPIC, .updated),
     (EMPLOYEE_DELETED_TOPIC, .deleted),
     (EMPLOYEE_TERMINATED_TOPIC, .terminated)]

/-! ## Remote Employee Client (`app/api/clients/employee_service.py`)

The HTTP exchange is reified as an outcome value: either a response with a
status code (and, for the data endpoints, a body), or an
`httpx.RequestError`, or any other exception — the two `except` arms of
each client method. -/

/-- Raw JSON employee object returned by the upstream service, kept
uninterpreted (the fallback path returns it verbatim). -/
abbrev RemoteProfile := List (String × String)

/-- Outcome of the HTTP request inside `verify_employee_exists`. -/
inductive HttpAttempt where
  | response (status : Nat)
  | requestError
  | otherError
  deriving DecidableEq, Repr

/-- Outcome of the HTTP request inside the data-returning client methods. -/
inductive HttpDataAttempt where
  | response (status : Nat) (body : RemoteProfile)
  | requestError
  | otherError
  deriving DecidableEq, Repr

/-- `EmployeeServiceClient.verify_employee_exists`: `status == 200` on a
response; both exception arms log and return `False`. -/
def EmployeeServiceClient.verify_employee_exists (o : HttpAttempt) : Bool :=
  match o with
  | .response status => status == 200
  | .requestError => false
  | .otherError => false

/-- `EmployeeServiceClient.get_employee`: body on 200, else `None`; both
exception arms log and return `None`. -/
def EmployeeServiceClient.get_employee (o : HttpDataAttempt) : Option RemoteProfile :=
  match o with
  | .response status body => if status == 200 then some body else none
  | .requestError => none
  | .otherError => none

/-- `EmployeeServiceClient.get_employee_by_email`: body on 200, `None` on
404, `None` with a warning otherwise; both exception arms return `None`. -/
def EmployeeServiceClient.get_employee_by_email (o : HttpDataAttempt) : Option RemoteProfile :=
  match o with
  | .response status body =>
    if status == 200 then some body
    else if status == 404 then none
    else none
  | .requestError => none
  | .otherError => none

/-- The awaited client call as the service sees it: either the client ran
to completion on an HTTP outcome (the client itself never raises), or the
awaited call raised at the service level. -/
inductive BoolCall where
  | completed (o : HttpAttempt)
  | raised
  deriving DecidableEq, Repr

/-- As `BoolCall`, for the data-returning client methods. -/
inductive DataCall where
  | completed (o : HttpDataAttempt)
  | raised
  deriving DecidableEq, Repr

/-! ## Validation/Lookup service (`app/core/employee_service.py`)

Methods that can reach the fallback return, besides their Python result,
the table state after the call and a flag recording whether the Remote
Employee Client was invoked — the two observable effects the claims are
about. -/

/-- Zero-pad a number to two digits, as `"%02d"`. -/
def pad2 (n : Nat) : String :=
  ⟨[Char.ofNat (48 + n / 10 % 10), Char.ofNat (48 + n % 10)]⟩

/-- Zero-pad a number to four digits, as `"%04d"`. -/
def pad4 (n : Nat) : String :=
  ⟨[Char.ofNat (48 + n / 1000 % 10), Char.ofNat (48 + n / 100 % 10),
    Char.ofNat (48 + n / 10 % 10), Char.ofNat (48 + n % 10)]⟩

/-- Zero-pad a number to six digits, as `"%06d"`. -/
def pad6 (n : Nat) : String :=
  pad2 (n / 10000) ++ pad2 (n / 100 % 100) ++ pad2 (n % 100)

/-- `datetime.isoformat()`: `YYYY-MM-DDTHH:MM:SS`, the microseconds iff
non-zero, and the offset as `±HH:MM`, with `:SS` and `.ffffff` appended
only when the offset has seconds or microseconds. -/
def PyDateTime.isoformatStr (d : PyDateTime) : String :=
  pad4 d.year ++ "-" ++ pad2 d.month ++ "-" ++ pad2 d.day ++ "T" ++
  pad2 d.hour ++ ":" ++ pad2 d.minute ++ ":" ++ pad2 d.second ++
  (if d.microsecond ≠ 0 then "." ++ pad6 d.microsecond else "") ++
  (match d.tzOffsetMicros with
   | none => ""
   | some off =>
     let sign := if off < 0 then "-" else "+"
     let a := off.natAbs
     let hh := a / 3600000000
     let mm := a % 3600000000 / 60000000
     let ss := a % 60000000 / 1000000
     let us := a % 1000000
     sign ++ pad2 hh ++ ":" ++ pad2 mm ++
     (if ss ≠ 0 ∨ us ≠ 0 then
        ":" ++ pad2 ss ++ (if us ≠ 0 then "." ++ pad6 us else "")
      else ""))

/-- The normalized profile mapping built by `get_employee` /
`get_employee_by_email` on a cache hit, with `joining_date` rendered by
`isoformat()` or `None`. -/
structure EmployeeProfile where
  id : Int
  user_id : Option Int
  email : String
  first_name : String
  last_name : String
  full_name : String
  role : String
  job_title : String
  department : Option String
  team : Option String
  manager_id : Option Int
  employment_type : String
  status : String
  joining_date : Option String
  deriving DecidableEq, Repr

/-- The cache-hit profile dictionary of `get_employee`. -/
def cacheProfile (e : EmployeeCache) : EmployeeProfile :=
  { id := e.id
    user_id := e.user_id
    email := e.email
    first_name := e.first_name
    last_name := e.last_name
    full_name := e.full_name
    role := e.role
    job_title := e.job_title
    department := e.department
    team := e.team
    manager_id := e.manager_id
    employment_type := e.employment_type
    status := e.status
    joining_date := e.joining_date.map PyDateTime.isoformatStr }

/-- Result of a two-tier employee lookup: a normalized profile from the
cache, the raw remote JSON from the fallback, or not found. -/
inductive EmployeeLookupResult where
  | fromCache (profile : EmployeeProfile)
  | fromRemote (raw : RemoteProfile)
  | notFound
  deriving DecidableEq, Repr

/-- `EmployeeValidationService.verify_employee_exists` (cache-only
variant): a cached row "exists" iff its status is `active` or `on_leave`;
a miss logs and falls through to `return False` — the HTTP fallback is
only a comment in this variant. -/
def EmployeeValidationService.verify_employee_exists (σ : Store) (employee_id : Int) : Bool :=
  match getById σ employee_id with
  | some employee => employee.status == "active" || employee.status == "on_leave"
  | none => false

/-- `EmployeeValidationService.verify_employee_exists_async`: the cache
branch as in the sync variant; on a miss the awaited client call is made
(third component `true`), its boolean returned, and a raising call caught
into `False`.  The table (second component) is read, never written. -/
def EmployeeValidationService.verify_employee_exists_async (σ : Store) (employee_id : Int)
    (call : BoolCall) : Bool × Store × Bool :=
  match getById σ employee_id with
  | some employee => (employee.status == "active" || employee.status == "on_leave", σ, false)
  | none =>
    match call with
    | .completed o => (EmployeeServiceClient.verify_employee_exists o, σ, true)
    | .raised => (false, σ, true)

/-- `EmployeeValidationService.get_employee`: normalized profile on a
cache hit; on a miss the client is called (flag `true`) and its raw result
returned verbatim, any raise caught into `None`. -/
def EmployeeValidationService.get_employee (σ : Store) (employee_id : Int)
    (call : DataCall) : EmployeeLookupResult × Store × Bool :=
  match getById σ employee_id with
  | some employee => (.fromCache (cacheProfile employee), σ, false)
  | none =>
    match call with
    | .completed o =>
      match EmployeeServiceClient.get_employee o with
      | some body => (.fromRemote body, σ, true)
      | none => (.notFound, σ, true)
    | .raised => (.notFound, σ, true)

/-- `EmployeeValidationService.get_employee_by_email`: as `get_employee`,
keyed by the email column. -/
def EmployeeValidationService.get_employee_by_email (σ : Store) (email : String)
    (call : DataCall) : EmployeeLookupResult × Store × Bool :=
  match getByEmail σ email with
  | some employee => (.fromCache (cacheProfile employee), σ, false)
  | none =>
    match call with
    | .completed o =>
      match EmployeeServiceClient.get_employee_by_email o with
      | some body => (.fromRemote body, σ, true)
      | none => (.notFound, σ, true)
    | .raised => (.notFound, σ, true)

/-- `EmployeeValidationService.get_cached_employee_count`: the length of a
full scan. -/
def EmployeeValidationService.get_cached_employee_count (σ : Store) : Nat :=
  σ.length

/-- `EmployeeValidationService.get_active_employee_count`: rows with
`status == "active"`. -/
def EmployeeValidationService.get_active_employee_count (σ : Store) : Nat :=
  (σ.filter (fun r => r.status == "active")).length

/-! ## Store lemmas -/

/-- Pairwise-distinct primary keys: the invariant the `id` primary-key
constraint keeps on every reachable table. -/
def idsUnique : Store → Bool
  | [] => true
  | r :: rest => rest.all (fun x => x.id != r.id) && idsUnique rest

theorem getById_none_iff {σ : Store} {i : Int} :
    getById σ i = none ↔ ∀ x ∈ σ, x.id ≠ i := by
  simp [getById, List.find?_eq_none]

theorem getById_some {σ : Store} {i : Int} {r : EmployeeCache}
    (h : getById σ i = some r) : r ∈ σ ∧ r.id = i := by
  refine ⟨List.mem_of_find?_eq_some h, ?_⟩
  have := List.find?_some h
  simpa using this

theorem getById_append_none {σ : Store} {i : Int} (h : getById σ i = none)
    (r : EmployeeCache) :
    getById (σ ++ [r]) i = if r.id = i then some r else none := by
  unfold getById at h ⊢
  rw [List.find?_append, h]
  by_cases hr : r.id = i <;> simp [hr]

theorem updateRow_of_absent {σ : Store} {r : EmployeeCache}
    (h : ∀ x ∈ σ, x.id ≠ r.id) : updateRow σ r = σ := by
  induction σ with
  | nil => rfl
  | cons a rest ih =>
    have ha : a.id ≠ r.id := h a (by simp)
    simp only [updateRow, List.map_cons] at ih ⊢
    rw [if_neg (by simpa using ha), ih (fun x hx => h x (by simp [hx]))]

theorem getById_updateRow {σ : Store} {i : Int} {ex r : EmployeeCache}
    (hfind : getById σ i = some ex) (hr : r.id = i) :
    getById (updateRow σ r) i = some r := by
  unfold getById updateRow at *
  rw [List.find?_map]
  have hcong : ((fun x : EmployeeCache => x.id == i) ∘
      (fun x : EmployeeCache => if x.id == r.id then r else x)) =
      (fun x : EmployeeCache => x.id == i) := by
    funext x
    by_cases hx : x.id = i <;> simp [Function.comp, hx, hr]
  have hex : ex.id = i := by
    have := List.find?_some hfind
    simpa using this
  rw [hcong, hfind]
  simp [hr, hex]

theorem updateRow_updateRow {σ : Store} {r : EmployeeCache} :
    updateRow (updateRow σ r) r = updateRow σ r := by
  unfold updateRow
  rw [List.map_map]
  apply List.map_congr_left
  intro x _
  by_cases hx : x.id = r.id <;> simp [Function.comp, hx]

theorem mem_updateRow_of_ne {σ : Store} {r x : EmployeeCache}
    (hx : x ∈ σ) (hne : x.id ≠ r.id) : x ∈ updateRow σ r := by
  unfold updateRow
  have hkeep : (if x.id == r.id then r else x) = x := by simp [hne]
  exact hkeep ▸ List.mem_map_of_mem _ hx

theorem emailFree_iff {σ : Store} {i : Int} {e : String} :
    emailFree σ i e = true ↔
      ∀ x ∈ σ, x.id = i ∨ x.status = "deleted" ∨ x.email ≠ e := by
  simp only [emailFree, List.all_eq_true, Bool.or_eq_true, beq_iff_eq, bne_iff_ne, ne_eq]
  constructor <;> intro h x hx <;> have := h x hx <;> tauto

theorem emailFree_updateRow {σ : Store} {i : Int} {e : String} {r : EmployeeCache}
    (hr : r.id = i) (h : emailFree σ i e = true) :
    emailFree (updateRow σ r) i e = true := by
  rw [emailFree_iff] at h ⊢
  intro x hx
  rcases List.mem_map.1 hx with ⟨y, hy, rfl⟩
  by_cases hyi : y.id = r.id
  · simp [hyi, hr]
  · simpa [hyi] using h y hy

theorem filter_id_of_absent {σ : Store} {i : Int}
    (h : ∀ x ∈ σ, x.id ≠ i) :
    σ.filter (fun x => x.id == i) = [] := by
  simp only [List.filter_eq_nil_iff]
  intro x hx
  simpa using h x hx

theorem filter_id_updateRow {σ : Store} {i : Int} {ex r : EmployeeCache}
    (hids : idsUnique σ = true) (hfind : getById σ i = some ex) (hr : r.id = i) :
    (updateRow σ r).filter (fun x => x.id == i) = [r] := by
  induction σ with
  | nil => simp [getById] at hfind
  | cons a rest ih =>
    have hids' : (rest.all (fun x => x.id != a.id)) = true ∧ idsUnique rest = true := by
      simpa [idsUnique, Bool.and_eq_true] using hids
    by_cases ha : a.id = i
    · have hrest : ∀ x ∈ rest, x.id ≠ i := by
        intro x hx
        have := (List.all_eq_true.1 hids'.1) x hx
        simpa [ha] using this
      have hmap : updateRow rest r = rest :=
        updateRow_of_absent (fun x hx => by rw [hr]; exact hrest x hx)
      simp only [updateRow, List.map_cons] at hmap ⊢
      rw [if_pos (by simp [ha, hr]), hmap, List.filter_cons]
      simp only [hr, beq_self_eq_true, if_pos]
      rw [filter_id_of_absent hrest]
    · have hfind' : getById rest i = some ex := by
        unfold getById at hfind ⊢
        rwa [List.find?_cons_of_neg _ (by simpa using ha)] at hfind
      have hstep := ih hids'.2 hfind'
      simp only [updateRow, List.map_cons] at hstep ⊢
      rw [if_neg (by simp [ha, hr]), List.filter_cons, if_neg (by simpa using ha)]
      exact hstep

/-! ## Claims -/

/-- C1: for every cached employee record, `verify_employee_exists` (both
the cache-only and the async variant) returns `true` iff the record's
status is `"active"` or `"on_leave"`; any other status yields `false`, and
on a cache miss the cache-only variant returns `false`. -/
theorem verify_employee_exists_status_gate (σ : Store) (i : Int) (call : BoolCall) :
    (∀ r, getById σ i = some r →
      ((EmployeeValidationService.verify_employee_exists σ i = true ↔
          (r.status = "active" ∨ r.status = "on_leave")) ∧
        ((EmployeeValidationService.verify_employee_exists_async σ i call).1 = true ↔
          (r.status = "active" ∨ r.status = "on_leave")))) ∧
    (getById σ i = none → EmployeeValidationService.verify_employee_exists σ i = false) := by
  constructor
  · intro r h
    constructor <;>
      simp [EmployeeValidationService.verify_employee_exists,
        EmployeeValidationService.verify_employee_exists_async, h]
  · intro h
    simp [EmployeeValidationService.verify_employee_exists, h]

/-- Witness for C1: a cached record with status `"on_leave"` makes the
cache-only variant return `true`. -/
theorem verify_employee_exists_status_gate_witness :
    EmployeeValidationService.verify_employee_exists
      [⟨1, none, "w@x.io", "A", "B", "A B", "employee", "Eng", none, none, none,
        "permanent", "on_leave", none, 0, 0, 0⟩] 1 = true :=
  (((verify_employee_exists_status_gate
      [⟨1, none, "w@x.io", "A", "B", "A B", "employee", "Eng", none, none, none,
        "permanent", "on_leave", none, 0, 0, 0⟩] 1 .raised).1
      ⟨1, none, "w@x.io", "A", "B", "A B", "employee", "Eng", none, none, none,
        "permanent", "on_leave", none, 0, 0, 0⟩ (by decide)).1).mpr (Or.inr rfl)

/-- C2 (code bug): with Kafka enabled, `register_employee_handlers`
registers handlers for exactly the four topics `employee-created`,
`employee-updated`, `employee-deleted`, `employee-terminated`; the
`employee-suspended` and `employee-activated` topics get no handler even
though `handle_employee_suspended` and `handle_employee_activated` exist,
contradicting the function's own "Register all employee event handlers"
contract. -/
theorem register_employee_handlers_only_four_topics :
    (register_employee_handlers true).map Prod.fst =
      [EMPLOYEE_CREATED_TOPIC, EMPLOYEE_UPDATED_TOPIC,
       EMPLOYEE_DELETED_TOPIC, EMPLOYEE_TERMINATED_TOPIC] ∧
    EMPLOYEE_SUSPENDED_TOPIC ∉ (register_employee_handlers true).map Prod.fst ∧
    EMPLOYEE_ACTIVATED_TOPIC ∉ (register_employee_handlers true).map Prod.fst ∧
    register_employee_handlers false = [] := by
  refine ⟨rfl, ?_, ?_, rfl⟩ <;> decide

/-- C7: on a cache miss, the async variant returns exactly the boolean
produced by the Remote Employee Client, and every failure mode of the
fallback call — an `httpx.RequestError`, any other client-side exception,
or the awaited call itself raising — yields `false` rather than a
propagated exception. -/
theorem verify_employee_exists_async_fallback (σ : Store) (i : Int)
    (h : getById σ i = none) :
    (∀ o, (EmployeeValidationService.verify_employee_exists_async σ i (.completed o)).1 =
        EmployeeServiceClient.verify_employee_exists o) ∧
    (∀ st, (EmployeeValidationService.verify_employee_exists_async σ i
        (.completed (.response st))).1 = (st == 200)) ∧
    (EmployeeValidationService.verify_employee_exists_async σ i
      (.completed .requestError)).1 = false ∧
    (EmployeeValidationService.verify_employee_exists_async σ i
      (.completed .otherError)).1 = false ∧
    (EmployeeValidationService.verify_employee_exists_async σ i .raised).1 = false := by
  refine ⟨?_, ?_, ?_, ?_, ?_⟩ <;>
    simp [EmployeeValidationService.verify_employee_exists_async,
      EmployeeServiceClient.verify_employee_exists, h]

/-- Witness for C7: on the empty cache, a stub 200 response yields `true`
and a transport error yields `false`. -/
theorem verify_employee_exists_async_fallback_witness :
    (EmployeeValidationService.verify_employee_exists_async [] 7
      (.completed (.response 200))).1 = true ∧
    (EmployeeValidationService.verify_employee_exists_async [] 7
      (.completed .requestError)).1 = false :=
  ⟨by simpa using (verify_employee_exists_async_fallback [] 7 rfl).2.1 200,
   (verify_employee_exists_async_fallback [] 7 rfl).2.2.1⟩

/-- C10: every one of the six handlers treats an event whose `data`
carries `employee_id = 0` exactly like one whose `employee_id` key is
absent: the truthiness guard `if not employee_id` fails both, so the
handler returns without mutating the store. -/
theorem handlers_treat_zero_id_as_missing (d : EventData) (σ : Store) (now : Nat)
    (h : d.employee_id = some 0) :
    (handle_employee_created ⟨some d⟩ now σ = σ ∧
      handle_employee_created ⟨some { d with employee_id := none }⟩ now σ = σ) ∧
    (handle_employee_updated ⟨some d⟩ now σ = σ ∧
      handle_employee_updated ⟨some { d with employee_id := none }⟩ now σ = σ) ∧
    (handle_employee_deleted ⟨some d⟩ now σ = σ ∧
      handle_employee_deleted ⟨some { d with employee_id := none }⟩ now σ = σ) ∧
    (handle_employee_terminated ⟨some d⟩ now σ = σ ∧
      handle_employee_terminated ⟨some { d with employee_id := none }⟩ now σ = σ) ∧
    (handle_employee_suspended ⟨some d⟩ now σ = σ ∧
      handle_employee_suspended ⟨some { d with employee_id := none }⟩ now σ = σ) ∧
    (handle_employee_activated ⟨some d⟩ now σ = σ ∧
      handle_employee_activated ⟨some { d with employee_id := none }⟩ now σ = σ) := by
  refine ⟨⟨?_, ?_⟩, ⟨?_, ?_⟩, ⟨?_, ?_⟩, ⟨?_, ?_⟩, ⟨?_, ?_⟩, ⟨?_, ?_⟩⟩ <;>
    simp [handle_employee_created, handle_employee_updated, handle_employee_deleted,
      handle_employee_terminated, handle_employee_suspended, handle_employee_activated,
      Event.getData, truthyId, h]

/-- Witness for C10: a created event with `employee_id = 0` leaves the
empty store empty. -/
theorem handlers_treat_zero_id_as_missing_witness :
    handle_employee_created ⟨some { employee_id := some 0 }⟩ 0 [] = [] :=
  (handlers_treat_zero_id_as_missing { employee_id := some 0 } [] 0 rfl).1.1

/-- C8: a lookup that misses the cache and falls back to the Remote
Employee Client never writes back into the cache: the table after any
`get_employee`, `get_employee_by_email` or `verify_employee_exists_async`
call is the input table, and on a miss the remote flag is set both on the
first call and on an identical second call against the resulting table. -/
theorem lookup_fallback_no_cache_writeback (σ : Store) (i : Int) (em : String)
    (d d2 : DataCall) (b b2 : BoolCall) :
    ((EmployeeValidationService.get_employee σ i d).2.1 = σ) ∧
    ((EmployeeValidationService.get_employee_by_email σ em d).2.1 = σ) ∧
    ((EmployeeValidationService.verify_employee_exists_async σ i b).2.1 = σ) ∧
    (getById σ i = none →
      (EmployeeValidationService.get_employee σ i d).2.2 = true ∧
      (EmployeeValidationService.get_employee
        (EmployeeValidationService.get_employee σ i d).2.1 i d2).2.2 = true ∧
      (EmployeeValidationService.verify_employee_exists_async σ i b).2.2 = true ∧
      (EmployeeValidationService.verify_employee_exists_async
        (EmployeeValidationService.verify_employee_exists_async σ i b).2.1 i b2).2.2 = true) ∧
    (getByEmail σ em = none →
      (EmployeeValidationService.get_employee_by_email σ em d).2.2 = true ∧
      (EmployeeValidationService.get_employee_by_email
        (EmployeeValidationService.get_employee_by_email σ em d).2.1 em d2).2.2 = true) := by
  have hs : ∀ (τ : Store) (c : DataCall),
      (EmployeeValidationService.get_employee τ i c).2.1 = τ := by
    intro τ c
    unfold EmployeeValidationService.get_employee
    rcases h : getById τ i with _ | r
    · rcases c with o | _
      · rcases ho : EmployeeServiceClient.get_employee o with _ | body <;> simp [ho]
      · simp
    · simp
  have he : ∀ (τ : Store) (c : DataCall),
      (EmployeeValidationService.get_employee_by_email τ em c).2.1 = τ := by
    intro τ c
    unfold EmployeeValidationService.get_employee_by_email
    rcases h : getByEmail τ em with _ | r
    · rcases c with o | _
      · rcases ho : EmployeeServiceClient.get_employee_by_email o with _ | body <;> simp [ho]
      · simp
    · simp
  have hv : ∀ (τ : Store) (c : BoolCall),
      (EmployeeValidationService.verify_employee_exists_async τ i c).2.1 = τ := by
    intro τ c
    unfold EmployeeValidationService.verify_employee_exists_async
    rcases h : getById τ i with _ | r
    · rcases c with o | _ <;> simp
    · simp
  refine ⟨hs σ d, he σ d, hv σ b, ?_, ?_⟩
  · intro h
    have hflag : ∀ c : DataCall,
        (EmployeeValidationService.get_employee σ i c).2.2 = true := by
      intro c
      unfold EmployeeValidationService.get_employee
      rw [h]
      rcases c with o | _
      · rcases ho : EmployeeServiceClient.get_employee o with _ | body <;> simp [ho]
      · simp
    have hbflag : ∀ c : BoolCall,
        (EmployeeValidationService.verify_employee_exists_async σ i c).2.2 = true := by
      intro c
      unfold EmployeeValidationService.verify_employee_exists_async
      rw [h]
      rcases c with o | _ <;> simp
    refine ⟨hflag d, ?_, hbflag b, ?_⟩
    · rw [hs σ d]
      exact hflag d2
    · rw [hv σ b]
      exact hbflag b2
  · intro h
    have hflag : ∀ c : DataCall,
        (EmployeeValidationService.get_employee_by_email σ em c).2.2 = true := by
      intro c
      unfold EmployeeValidationService.get_employee_by_email
      rw [h]
      rcases c with o | _
      · rcases ho : EmployeeServiceClient.get_employee_by_email o with _ | body <;> simp [ho]
      · simp
    refine ⟨hflag d, ?_⟩
    rw [he σ d]
    exact hflag d2

/-- Witness for C8: a miss on the empty store leaves it empty and sets the
remote flag on both of two successive calls. -/
theorem lookup_fallback_no_cache_writeback_witness :
    (EmployeeValidationService.get_employee [] 3 (.completed (.response 200 []))).2.1 = [] ∧
    (EmployeeValidationService.get_employee [] 3 (.completed (.response 200 []))).2.2 = true :=
  ⟨(lookup_fallback_no_cache_writeback [] 3 "a@x.io"
      (.completed (.response 200 [])) (.completed (.response 200 [])) .raised .raised).1,
   ((lookup_fallback_no_cache_writeback [] 3 "a@x.io"
      (.completed (.response 200 [])) (.completed (.response 200 [])) .raised .raised).2.2.2.1
      rfl).1⟩

/-- Counterexample to C6 as stated: a record with `id = 0` is present in
the cache, yet the deleted event for `employee_id = 0` is discarded by the
truthiness guard (`if not employee_id`), so the record keeps status
`"active"` instead of being soft-deleted. -/
theorem handle_employee_deleted_zero_id_not_soft_deleted :
    getById [⟨0, none, "z@x.io", "A", "B", "A B", "employee", "Eng", none, none, none,
        "permanent", "active", none, 0, 0, 0⟩] 0 =
      some ⟨0, none, "z@x.io", "A", "B", "A B", "employee", "Eng", none, none, none,
        "permanent", "active", none, 0, 0, 0⟩ ∧
    handle_employee_deleted ⟨some { employee_id := some 0 }⟩ 1
        [⟨0, none, "z@x.io", "A", "B", "A B", "employee", "Eng", none, none, none,
          "permanent", "active", none, 0, 0, 0⟩] =
      [⟨0, none, "z@x.io", "A", "B", "A B", "employee", "Eng", none, none, none,
        "permanent", "active", none, 0, 0, 0⟩] := by
  constructor <;> rfl

/-- C6 (amended): for every deleted event with a nonzero `employee_id`
present in the cache, the handler soft-deletes: status becomes
`"deleted"`, `updated_at`/`synced_at` are refreshed, every other field is
untouched, the row count is unchanged and the record stays retrievable by
id; rows with other ids stay in the table, and an absent id is a no-op. -/
theorem handle_employee_deleted_soft_delete (σ : Store) (d : EventData) (now : Nat)
    (i : Int)
    (hid : d.employee_id = some i) (h0 : i ≠ 0) :
    (∀ employee, getById σ i = some employee →
      handle_employee_deleted ⟨some d⟩ now σ =
        updateRow σ { employee with status := "deleted", updated_at := now, synced_at := now } ∧
      getById (handle_employee_deleted ⟨some d⟩ now σ) i =
        some { employee with status := "deleted", updated_at := now, synced_at := now } ∧
      (handle_employee_deleted ⟨some d⟩ now σ).length = σ.length ∧
      (∀ x ∈ σ, x.id ≠ i → x ∈ handle_employee_deleted ⟨some d⟩ now σ)) ∧
    (getById σ i = none → handle_employee_deleted ⟨some d⟩ now σ = σ) := by
  constructor
  · intro employee hf
    have hexid : employee.id = i := (getById_some hf).2
    have hred : handle_employee_deleted ⟨some d⟩ now σ =
        updateRow σ { employee with status := "deleted", updated_at := now, synced_at := now } := by
      simp [handle_employee_deleted, Event.getData, truthyId, hid, h0, hf]
    refine ⟨hred, ?_, ?_, ?_⟩
    · rw [hred]
      exact getById_updateRow hf (by simpa using hexid)
    · rw [hred]
      simp [updateRow]
    · intro x hx hne
      rw [hred]
      exact mem_updateRow_of_ne hx (by simpa [hexid] using hne)
  · intro hf
    simp [handle_employee_deleted, Event.getData, truthyId, hid, h0, hf]

/-- Witness for C6: soft-deleting a cached record with id 5 keeps it
retrievable with status `"deleted"` and its profile fields intact. -/
theorem handle_employee_deleted_soft_delete_witness :
    getById (handle_employee_deleted ⟨some { employee_id := some 5 }⟩ 9
        [⟨5, none, "e@x.io", "A", "B", "A B", "employee", "Eng", none, none, none,
          "permanent", "active", none, 0, 0, 0⟩]) 5 =
      some ⟨5, none, "e@x.io", "A", "B", "A B", "employee", "Eng", none, none, none,
        "permanent", "deleted", none, 0, 9, 9⟩ :=
  (((handle_employee_deleted_soft_delete
      [⟨5, none, "e@x.io", "A", "B", "A B", "employee", "Eng", none, none, none,
        "permanent", "active", none, 0, 0, 0⟩]
      { employee_id := some 5 } 9 5 rfl (by decide)).1
      ⟨5, none, "e@x.io", "A", "B", "A B", "employee", "Eng", none, none, none,
        "permanent", "active", none, 0, 0, 0⟩ rfl).2.1)

/-- Counterexample to C3 as stated: an updated event for the unknown id 7
whose `updated_fields` (not the top-level data) carries non-empty `email`,
`first_name` and `last_name` is dropped — the handler's recovery create
reads only the top-level fields, so no record is created. -/
theorem handle_employee_updated_recovery_ignores_updated_fields :
    handle_employee_updated
      ⟨some { employee_id := some 7,
              updated_fields := { email := some "jane@x.io",
                                  first_name := some "Jane",
                                  last_name := some "Doe" } }⟩ 5 [] = [] := by
  rfl

/-- C3 (amended): for an updated event with a nonzero `employee_id` absent
from the cache, the handler recovery-creates a record with
`status="active"` from the top-level data fields when `email`,
`first_name` and `last_name` are all non-empty there (and the email is
free in the store), with `joining_date` left absent; if any of the three
top-level fields is missing or empty, the event is dropped and the store
unchanged. -/
theorem handle_employee_updated_recovery_create (σ : Store) (d : EventData) (now : Nat)
    (i : Int)
    (hid : d.employee_id = some i) (h0 : i ≠ 0) (habs : getById σ i = none) :
    (d.email.getD "" ≠ "" → d.first_name.getD "" ≠ "" → d.last_name.getD "" ≠ "" →
      emailFree σ i (d.email.getD "") = true →
      ∃ r, handle_employee_updated ⟨some d⟩ now σ = σ ++ [r] ∧
        r.id = i ∧ r.status = "active" ∧ r.email = d.email.getD "" ∧
        r.first_name = d.first_name.getD "" ∧ r.last_name = d.last_name.getD "" ∧
        r.full_name = pyStrip (d.first_name.getD "" ++ " " ++ d.last_name.getD "") ∧
        r.job_title = d.job_title.getD "Unknown" ∧
        r.joining_date = none ∧ r.created_at = now) ∧
    ((d.email.getD "" = "" ∨ d.first_name.getD "" = "" ∨ d.last_name.getD "" = "") →
      handle_employee_updated ⟨some d⟩ now σ = σ) := by
  constructor
  · intro hem hfn hln hfree
    have heq : handle_employee_updated ⟨some d⟩ now σ = σ ++
        [{ id := i
           user_id := d.user_id
           email := d.email.getD ""
           first_name := d.first_name.getD ""
           last_name := d.last_name.getD ""
           full_name := pyStrip (d.first_name.getD "" ++ " " ++ d.last_name.getD "")
           role := d.role.getD "employee"
           job_title := d.job_title.getD "Unknown"
           department := d.department
           team := d.team
           manager_id := d.manager_id
           employment_type := d.employment_type.getD "permanent"
           status := "active"
           joining_date := none
           created_at := now
           updated_at := now
           synced_at := now }] := by
      simp [handle_employee_updated, Event.getData, truthyId, hid, h0, habs,
        hem, hfn, hln, insertRow, hfree]
    exact ⟨_, heq, rfl, rfl, rfl, rfl, rfl, rfl, rfl, rfl, rfl⟩
  · intro hdrop
    rcases hdrop with hdrop | hdrop | hdrop <;>
      simp [handle_employee_updated, Event.getData, truthyId, hid, h0, habs, hdrop]

/-- Witness for C3: an orphan update carrying the three top-level fields
creates a fresh active record for id 7 on the empty store. -/
theorem handle_employee_updated_recovery_create_witness :
    ∃ r, handle_employee_updated
        ⟨some { employee_id := some 7, email := some "jane@x.io",
                first_name := some "Jane", last_name := some "Doe" }⟩ 5 [] = [r] ∧
      r.id = 7 ∧ r.status = "active" ∧ r.email = "jane@x.io" := by
  obtain ⟨r, heq, h1, h2, h3, -⟩ :=
    (handle_employee_updated_recovery_create []
      { employee_id := some 7, email := some "jane@x.io",
        first_name := some "Jane", last_name := some "Doe" } 5 7
      rfl (by decide) rfl).1 (by decide) (by decide) (by decide) rfl
  exact ⟨r, heq, h1, h2, h3⟩

/-- Counterexample to C5 as stated: the cached record id 1 receives an
update whose change-set contains `first_name = "Z"` and an `email` already
held by the non-deleted record id 2; the commit violates the store's email
uniqueness, the transaction rolls back, and `full_name` is NOT recomputed
(stays `"A B"`) although `first_name` is in the change-set. -/
theorem handle_employee_updated_collision_no_recompute :
    handle_employee_updated
        ⟨some { employee_id := some 1,
                updated_fields := { email := some "b@x.io", first_name := some "Z" } }⟩ 9
        [⟨1, none, "a@x.io", "A", "B", "A B", "employee", "Eng", none, none, none,
          "permanent", "active", none, 0, 0, 0⟩,
         ⟨2, none, "b@x.io", "C", "D", "C D", "employee", "Eng", none, none, none,
          "permanent", "active", none, 0, 0, 0⟩] =
      [⟨1, none, "a@x.io", "A", "B", "A B", "employee", "Eng", none, none, none,
        "permanent", "active", none, 0, 0, 0⟩,
       ⟨2, none, "b@x.io", "C", "D", "C D", "employee", "Eng", none, none, none,
        "permanent", "active", none, 0, 0, 0⟩] ∧
    (getById (handle_employee_updated
        ⟨some { employee_id := some 1,
                updated_fields := { email := some "b@x.io", first_name := some "Z" } }⟩ 9
        [⟨1, none, "a@x.io", "A", "B", "A B", "employee", "Eng", none, none, none,
          "permanent", "active", none, 0, 0, 0⟩,
         ⟨2, none, "b@x.io", "C", "D", "C D", "employee", "Eng", none, none, none,
          "permanent", "active", none, 0, 0, 0⟩]) 1).map (fun r => r.full_name) =
      some "A B" := by
  constructor <;> rfl

/-- C5 (amended): for every updated event with a nonzero `employee_id`
present in the cache whose email assignment (if any) does not collide with
another non-deleted record, exactly the keys present in `updated_fields`
are applied: every handled profile field absent from the change-set keeps
its prior value, `full_name` is recomputed precisely when `first_name` or
`last_name` is present, `joining_date`/`created_at` are untouched,
`updated_at`/`synced_at` are refreshed, other rows stay in the table, and
the row count is unchanged. -/
theorem handle_employee_updated_partial_update_frame (σ : Store) (d : EventData)
    (now : Nat) (i : Int) (employee : EmployeeCache)
    (hid : d.employee_id = some i) (h0 : i ≠ 0)
    (hfound : getById σ i = some employee)
    (hfree : ∀ v, d.updated_fields.email = some v → emailFree σ i v = true) :
    ∃ e', handle_employee_updated ⟨some d⟩ now σ = updateRow σ e' ∧
      e'.id = employee.id ∧
      e'.email = d.updated_fields.email.getD employee.email ∧
      e'.first_name = d.updated_fields.first_name.getD employee.first_name ∧
      e'.last_name = d.updated_fields.last_name.getD employee.last_name ∧
      e'.full_name = (if d.updated_fields.first_name.isSome || d.updated_fields.last_name.isSome
        then pyStrip (d.updated_fields.first_name.getD employee.first_name ++ " " ++
                      d.updated_fields.last_name.getD employee.last_name)
        else employee.full_name) ∧
      e'.role = d.updated_fields.role.getD employee.role ∧
      e'.job_title = d.updated_fields.job_title.getD employee.job_title ∧
      e'.department = d.updated_fields.department.getD employee.department ∧
      e'.team = d.updated_fields.team.getD employee.team ∧
      e'.manager_id = d.updated_fields.manager_id.getD employee.manager_id ∧
      e'.employment_type = d.updated_fields.employment_type.getD employee.employment_type ∧
      e'.status = d.updated_fields.status.getD employee.status ∧
      e'.user_id = d.updated_fields.user_id.getD employee.user_id ∧
      e'.joining_date = employee.joining_date ∧
      e'.created_at = employee.created_at ∧
      e'.updated_at = now ∧ e'.synced_at = now ∧
      (∀ x ∈ σ, x.id ≠ i → x ∈ handle_employee_updated ⟨some d⟩ now σ) ∧
      (handle_employee_updated ⟨some d⟩ now σ).length = σ.length := by
  have hexid : employee.id = i := (getById_some hfound).2
  have heq : handle_employee_updated ⟨some d⟩ now σ =
      updateRow σ { applyUpdatedFields d.updated_fields employee with
        updated_at := now, synced_at := now } := by
    rcases he : d.updated_fields.email with _ | v
    · simp [handle_employee_updated, Event.getData, truthyId, hid, h0, hfound, he]
    · have hfr : emailFree σ employee.id
          ((applyUpdatedFields d.updated_fields employee).email) = true := by
        have : (applyUpdatedFields d.updated_fields employee).email = v := by
          simp [applyUpdatedFields, he]
        rw [this, hexid]
        exact hfree v he
      simp [handle_employee_updated, Event.getData, truthyId, hid, h0, hfound, he,
        updateRowEmailChecked, applyUpdatedFields] at hfr ⊢
      simp [hfr]
  refine ⟨_, heq, rfl, rfl, rfl, rfl, rfl, rfl, rfl, rfl, rfl, rfl, rfl, rfl, rfl,
    rfl, rfl, rfl, rfl, ?_, ?_⟩
  · intro x hx hne
    rw [heq]
    have hrid : ({ applyUpdatedFields d.updated_fields employee with
        updated_at := now, synced_at := now } : EmployeeCache).id = i := by
      simp [applyUpdatedFields, hexid]
    exact mem_updateRow_of_ne hx (by rw [hrid]; exact hne)
  · rw [heq]
    simp [updateRow]

/-- Witness for C5: updating only `job_title` on a cached record leaves
`email` and `full_name` unchanged and sets the new title. -/
theorem handle_employee_updated_partial_update_frame_witness :
    ∃ e', handle_employee_updated
        ⟨some { employee_id := some 1,
                updated_fields := { job_title := some "Senior Engineer" } }⟩ 4
        [⟨1, none, "a@x.io", "A", "B", "A B", "employee", "Junior Engineer", none, none,
          none, "permanent", "active", none, 0, 0, 0⟩] =
      updateRow
        [⟨1, none, "a@x.io", "A", "B", "A B", "employee", "Junior Engineer", none, none,
          none, "permanent", "active", none, 0, 0, 0⟩] e' ∧
      e'.job_title = "Senior Engineer" ∧ e'.email = "a@x.io" ∧ e'.full_name = "A B" := by
  obtain ⟨e', heq, hi, hem, hfn, hln, hfull, hrole, hjob, hrest⟩ :=
    handle_employee_updated_partial_update_frame
      [⟨1, none, "a@x.io", "A", "B", "A B", "employee", "Junior Engineer", none, none,
        none, "permanent", "active", none, 0, 0, 0⟩]
      { employee_id := some 1, updated_fields := { job_title := some "Senior Engineer" } }
      4 1
      ⟨1, none, "a@x.io", "A", "B", "A B", "employee", "Junior Engineer", none, none,
        none, "permanent", "active", none, 0, 0, 0⟩
      rfl (by decide) rfl (fun v hv => Option.noConfusion hv)
  exact ⟨e', heq, hjob, hem, by simpa using hfull⟩

theorem all_congr_of_eq {α : Type} {l : List α} {p q : α → Bool}
    (h : ∀ x ∈ l, p x = q x) : l.all p = l.all q := by
  induction l with
  | nil => rfl
  | cons a rest ih =>
    simp only [List.all_cons]
    rw [h a (by simp), ih (fun x hx => h x (by simp [hx]))]

theorem idsUnique_updateRow {σ : Store} {r : EmployeeCache} :
    idsUnique (updateRow σ r) = idsUnique σ := by
  induction σ with
  | nil => rfl
  | cons a rest ih =>
    simp only [updateRow, List.map_cons, idsUnique] at ih ⊢
    have hhead : (if a.id == r.id then r else a).id = a.id := by
      by_cases h : a.id = r.id <;> simp [h]
    have hall : (rest.map (fun x => if x.id == r.id then r else x)).all
        (fun x => x.id != (if a.id == r.id then r else a).id) =
        rest.all (fun x => x.id != a.id) := by
      rw [List.all_map]
      apply all_congr_of_eq
      intro x _
      by_cases hx : x.id = r.id <;> by_cases ha : a.id = r.id <;>
        simp [Function.comp, hx, ha, hhead]
    rw [hall, ih]

theorem updateRow_updateRow_same_id {σ : Store} {r s : EmployeeCache}
    (h : r.id = s.id) : updateRow (updateRow σ r) s = updateRow σ s := by
  unfold updateRow
  rw [List.map_map]
  apply List.map_congr_left
  intro x _
  by_cases hx : x.id = r.id
  · simp [Function.comp, hx, h]
  · have hxs : x.id ≠ s.id := fun hh => hx (hh.trans h.symm)
    simp [Function.comp, hx, hxs]

/-- Counterexample to C4 as stated: a created event for id 2 whose email
is already held by the non-deleted cached record id 1 fails the store's
uniqueness constraint on both applications, so after processing the event
twice no record for id 2 exists at all (rather than exactly one). -/
theorem handle_employee_created_email_collision :
    ((handle_employee_created
        ⟨some { employee_id := some 2, email := some "dup@x.io",
                first_name := some "A", last_name := some "B" }⟩ 1
        (handle_employee_created
          ⟨some { employee_id := some 2, email := some "dup@x.io",
                  first_name := some "A", last_name := some "B" }⟩ 1
          [⟨1, none, "dup@x.io", "C", "D", "C D", "employee", "Eng", none, none, none,
            "permanent", "active", none, 0, 0, 0⟩])).filter
      (fun r => r.id == 2)) = [] := by
  rfl

/-- C4 (amended): for a created event with a nonzero `employee_id` whose
email does not collide with a different non-deleted cached record,
processing the event twice at one instant yields exactly the store of
processing it once, and for any two instants the final store holds exactly
one record for the event's id, carrying the event's field values (the
duplicate application updates the row in place; no duplicate row and no
error). -/
theorem handle_employee_created_idempotent_upsert (σ : Store) (d : EventData)
    (t t1 t2 : Nat) (i : Int)
    (hid : d.employee_id = some i) (h0 : i ≠ 0)
    (hids : idsUnique σ = true)
    (hfree : emailFree σ i (d.email.getD "") = true) :
    handle_employee_created ⟨some d⟩ t (handle_employee_created ⟨some d⟩ t σ) =
      handle_employee_created ⟨some d⟩ t σ ∧
    ((handle_employee_created ⟨some d⟩ t2 (handle_employee_created ⟨some d⟩ t1 σ)).filter
      (fun r => r.id == i)).length = 1 ∧
    ∀ r ∈ handle_employee_created ⟨some d⟩ t2 (handle_employee_created ⟨some d⟩ t1 σ),
      r.id = i →
      r.email = d.email.getD "" ∧ r.first_name = d.first_name.getD "" ∧
      r.last_name = d.last_name.getD "" ∧
      r.full_name = pyStrip (d.first_name.getD "" ++ " " ++ d.last_name.getD "") ∧
      r.role = d.role.getD "employee" ∧ r.job_title = d.job_title.getD "" ∧
      r.department = d.department ∧ r.team = d.team ∧
      r.manager_id = d.manager_id ∧
      r.employment_type = d.employment_type.getD "permanent" ∧
      r.status = "active" ∧ r.user_id = d.user_id ∧
      r.joining_date = (_parse_date d.joining_date).1 ∧
      r.updated_at = t2 ∧ r.synced_at = t2 := by
  rcases hf : getById σ i with _ | ex
  · -- the id is absent: the first application inserts, the second updates in place
    have habsent : ∀ x ∈ σ, x.id ≠ i := getById_none_iff.1 hf
    let R : Nat → Nat → EmployeeCache := fun u v =>
      { id := i
        user_id := d.user_id
        email := d.email.getD ""
        first_name := d.first_name.getD ""
        last_name := d.last_name.getD ""
        full_name := pyStrip (d.first_name.getD "" ++ " " ++ d.last_name.getD "")
        role := d.role.getD "employee"
        job_title := d.job_title.getD ""
        department := d.department
        team := d.team
        manager_id := d.manager_id
        employment_type := d.employment_type.getD "permanent"
        status := "active"
        joining_date := (_parse_date d.joining_date).1
        created_at := u
        updated_at := v
        synced_at := v }
    have h1 : ∀ u, handle_employee_created ⟨some d⟩ u σ = σ ++ [R u u] := by
      intro u
      simp [handle_employee_created, Event.getData, truthyId, hid, h0, hf,
        insertRow, hfree, R]
    have hfind1 : ∀ u, getById (σ ++ [R u u]) i = some (R u u) := by
      intro u
      rw [getById_append_none hf]
      simp
    have hfree1 : ∀ u, emailFree (σ ++ [R u u]) i (d.email.getD "") = true := by
      intro u
      rw [emailFree_iff]
      intro x hx
      rcases List.mem_append.1 hx with hx | hx
      · exact emailFree_iff.1 hfree x hx
      · left
        simp only [List.mem_singleton] at hx
        rw [hx]
    have h2 : ∀ u v, handle_employee_created ⟨some d⟩ v (σ ++ [R u u]) =
        updateRow (σ ++ [R u u]) (R u v) := by
      intro u v
      simp [handle_employee_created, Event.getData, truthyId, hid, h0, hfind1 u,
        updateRowEmailChecked, hfree1 u, R]
    have h3 : ∀ u v, updateRow (σ ++ [R u u]) (R u v) = σ ++ [R u v] := by
      intro u v
      unfold updateRow
      rw [List.map_append]
      have hl : σ.map (fun x => if x.id == (R u v).id then R u v else x) = σ := by
        have := updateRow_of_absent (σ := σ) (r := R u v) (fun x hx => habsent x hx)
        simpa [updateRow] using this
      rw [hl]
      simp [R]
    refine ⟨?_, ?_, ?_⟩
    · rw [h1 t, h2 t t, h3 t t]
    · rw [h1 t1, h2 t1 t2, h3 t1 t2, List.filter_append,
        filter_id_of_absent habsent]
      simp [R]
    · intro r hr hri
      rw [h1 t1, h2 t1 t2, h3 t1 t2] at hr
      rcases List.mem_append.1 hr with hx | hx
      · exact absurd hri (habsent r hx)
      · simp only [List.mem_singleton] at hx
        subst hx
        exact ⟨rfl, rfl, rfl, rfl, rfl, rfl, rfl, rfl, rfl, rfl, rfl, rfl, rfl, rfl, rfl⟩
  · -- the id is already cached: both applications update the row in place
    have hexid : ex.id = i := (getById_some hf).2
    let U : Nat → EmployeeCache := fun v =>
      { ex with
        user_id := d.user_id
        email := d.email.getD ""
        first_name := d.first_name.getD ""
        last_name := d.last_name.getD ""
        full_name := pyStrip (d.first_name.getD "" ++ " " ++ d.last_name.getD "")
        role := d.role.getD "employee"
        job_title := d.job_title.getD ""
        department := d.department
        team := d.team
        manager_id := d.manager_id
        employment_type := d.employment_type.getD "permanent"
        status := "active"
        joining_date := (_parse_date d.joining_date).1
        updated_at := v
        synced_at := v }
    have hUid : ∀ v, (U v).id = i := fun v => hexid
    have h1 : ∀ v, handle_employee_created ⟨some d⟩ v σ = updateRow σ (U v) := by
      intro v
      simp [handle_employee_created, Event.getData, truthyId, hid, h0, hf,
        updateRowEmailChecked, hexid, hfree, U]
    have hfind1 : ∀ u, getById (updateRow σ (U u)) i = some (U u) := fun u =>
      getById_updateRow hf (hUid u)
    have hfree1 : ∀ u, emailFree (updateRow σ (U u)) i (d.email.getD "") = true :=
      fun u => emailFree_updateRow (hUid u) hfree
    have h2 : ∀ u v, handle_employee_created ⟨some d⟩ v (updateRow σ (U u)) =
        updateRow (updateRow σ (U u)) (U v) := by
      intro u v
      have hfind1' := hfind1 u
      have hfree1' := hfree1 u
      simp only [U, hexid] at hfind1' hfree1'
      simp [handle_employee_created, Event.getData, truthyId, hid, h0, hfind1',
        updateRowEmailChecked, hexid, hfree1', U]
    have h3 : ∀ u v, updateRow (updateRow σ (U u)) (U v) = updateRow σ (U v) :=
      fun u v => updateRow_updateRow_same_id ((hUid u).trans (hUid v).symm)
    refine ⟨?_, ?_, ?_⟩
    · rw [h1 t, h2 t t, h3 t t]
    · rw [h1 t1, h2 t1 t2,
        filter_id_updateRow (idsUnique_updateRow.trans hids) (hfind1 t1) (hUid t2)]
      rfl
    · intro r hr hri
      rw [h1 t1, h2 t1 t2] at hr
      have hmem : r ∈ (updateRow (updateRow σ (U t1)) (U t2)).filter
          (fun x => x.id == i) :=
        List.mem_filter.2 ⟨hr, by simp [hri]⟩
      rw [filter_id_updateRow (idsUnique_updateRow.trans hids) (hfind1 t1) (hUid t2),
        List.mem_singleton] at hmem
      subst hmem
      exact ⟨rfl, rfl, rfl, rfl, rfl, rfl, rfl, rfl, rfl, rfl, rfl, rfl, rfl, rfl, rfl⟩

/-- Witness for C4: the same created event applied twice to the empty
store at instant 3 equals a single application, which holds exactly one
matching record. -/
theorem handle_employee_created_idempotent_upsert_witness :
    handle_employee_created
        ⟨some { employee_id := some 4, email := some "n@x.io",
                first_name := some "N", last_name := some "M" }⟩ 3
        (handle_employee_created
          ⟨some { employee_id := some 4, email := some "n@x.io",
                  first_name := some "N", last_name := some "M" }⟩ 3 []) =
      handle_employee_created
        ⟨some { employee_id := some 4, email := some "n@x.io",
                first_name := some "N", last_name := some "M" }⟩ 3 [] ∧
    ((handle_employee_created
        ⟨some { employee_id := some 4, email := some "n@x.io",
                first_name := some "N", last_name := some "M" }⟩ 3
        (handle_employee_created
          ⟨some { employee_id := some 4, email := some "n@x.io",
                  first_name := some "N", last_name := some "M" }⟩ 3 [])).filter
      (fun r => r.id == 4)).length = 1 :=
  ⟨(handle_employee_created_idempotent_upsert []
      { employee_id := some 4, email := some "n@x.io",
        first_name := some "N", last_name := some "M" } 3 3 3 4
      rfl (by decide) rfl rfl).1,
   (handle_employee_created_idempotent_upsert []
      { employee_id := some 4, email := some "n@x.io",
        first_name := some "N", last_name := some "M" } 3 3 3 4
      rfl (by decide) rfl rfl).2.1⟩

theorem replaceZ_of_not_mem {cs : List Char} (h : 'Z' ∉ cs) :
    replaceZList cs = cs := by
  induction cs with
  | nil => rfl
  | cons c rest ih =>
    have hc : ¬c = 'Z' := fun hc => h (by simp [hc])
    simp only [replaceZList, if_neg hc]
    rw [ih (fun hm => h (by simp [hm]))]

theorem replaceZ_append_Z {cs : List Char} (h : 'Z' ∉ cs) :
    replaceZList (cs ++ ['Z']) =
      cs ++ ('+' :: '0' :: '0' :: ':' :: '0' :: '0' :: []) := by
  induction cs with
  | nil => rfl
  | cons c rest ih =>
    have hc : ¬c = 'Z' := fun hc => h (by simp [hc])
    simp only [List.cons_append, replaceZList, if_neg hc, List.append_eq]
    rw [ih (fun hm => h (by simp [hm]))]

theorem digitVal_char (a : Nat) (h : a < 10) :
    digitVal (Char.ofNat (48 + a)) = some a := by
  interval_cases a <;> rfl

theorem digitChar_ne_Z (a : Nat) (h : a < 10) : ¬('Z' = Char.ofNat (48 + a)) := by
  interval_cases a <;> decide

theorem parseNatDigits_two (a b : Nat) (ha : a < 10) (hb : b < 10) :
    parseNatDigits [Char.ofNat (48 + a), Char.ofNat (48 + b)] = some (a * 10 + b) := by
  simp only [parseNatDigits, List.foldl_cons, List.foldl_nil, Option.bind_eq_bind,
    Option.some_bind, digitVal_char a ha, digitVal_char b hb]
  norm_num

theorem parseNatDigits_four (a b c e : Nat) (ha : a < 10) (hb : b < 10)
    (hc : c < 10) (he : e < 10) :
    parseNatDigits [Char.ofNat (48 + a), Char.ofNat (48 + b),
      Char.ofNat (48 + c), Char.ofNat (48 + e)] =
      some (((a * 10 + b) * 10 + c) * 10 + e) := by
  simp only [parseNatDigits, List.foldl_cons, List.foldl_nil, Option.bind_eq_bind,
    Option.some_bind, digitVal_char a ha, digitVal_char b hb, digitVal_char c hc,
    digitVal_char e he]
  norm_num

/-- The zero-padded decimal rendering of a `YYYY-MM-DD` date, the
claim-side description of "a plain `YYYY-MM-DD` date string". -/
def renderYmd (y m d : Nat) : String :=
  ⟨[Char.ofNat (48 + y / 1000 % 10), Char.ofNat (48 + y / 100 % 10),
    Char.ofNat (48 + y / 10 % 10), Char.ofNat (48 + y % 10), '-',
    Char.ofNat (48 + m / 10 % 10), Char.ofNat (48 + m % 10), '-',
    Char.ofNat (48 + d / 10 % 10), Char.ofNat (48 + d % 10)]⟩

theorem fromisoCore_renderYmd (y m dd : Nat) (hy1 : 1 ≤ y) (hy2 : y ≤ 9999)
    (hm1 : 1 ≤ m) (hm2 : m ≤ 12) (hd1 : 1 ≤ dd) (hd2 : dd ≤ daysInMonth y m) :
    fromisoCore (renderYmd y m dd).toList = some ⟨y, m, dd, 0, 0, 0, 0, none⟩ := by
  have h1 : (renderYmd y m dd).toList =
      [Char.ofNat (48 + y / 1000 % 10), Char.ofNat (48 + y / 100 % 10),
       Char.ofNat (48 + y / 10 % 10), Char.ofNat (48 + y % 10), '-',
       Char.ofNat (48 + m / 10 % 10), Char.ofNat (48 + m % 10), '-',
       Char.ofNat (48 + dd / 10 % 10), Char.ofNat (48 + dd % 10)] := rfl
  have hdate : parseIsoDate
      [Char.ofNat (48 + y / 1000 % 10), Char.ofNat (48 + y / 100 % 10),
       Char.ofNat (48 + y / 10 % 10), Char.ofNat (48 + y % 10), '-',
       Char.ofNat (48 + m / 10 % 10), Char.ofNat (48 + m % 10), '-',
       Char.ofNat (48 + dd / 10 % 10), Char.ofNat (48 + dd % 10)] =
      some (y, m, dd) := by
    simp only [parseIsoDate]
    rw [parseNatDigits_four _ _ _ _ (by omega) (by omega) (by omega) (by omega),
      parseNatDigits_two _ _ (by omega) (by omega),
      parseNatDigits_two _ _ (by omega) (by omega)]
    simp only [Option.bind_eq_bind, Option.some_bind]
    have h100 : y / 100 / 10 = y / 1000 := by rw [Nat.div_div_eq_div_mul]
    have h10 : y / 10 / 10 = y / 100 := by rw [Nat.div_div_eq_div_mul]
    have hdd31 : dd ≤ 31 := by
      refine le_trans hd2 ?_
      unfold daysInMonth
      split_ifs <;> omega
    have ey : ((y / 1000 % 10 * 10 + y / 100 % 10) * 10 + y / 10 % 10) * 10 + y % 10 = y := by
      omega
    have em : m / 10 % 10 * 10 + m % 10 = m := by omega
    have ed : dd / 10 % 10 * 10 + dd % 10 = dd := by omega
    rw [ey, em, ed]
    simp
  rw [h1]
  unfold fromisoCore
  rw [show List.take 10
      [Char.ofNat (48 + y / 1000 % 10), Char.ofNat (48 + y / 100 % 10),
       Char.ofNat (48 + y / 10 % 10), Char.ofNat (48 + y % 10), '-',
       Char.ofNat (48 + m / 10 % 10), Char.ofNat (48 + m % 10), '-',
       Char.ofNat (48 + dd / 10 % 10), Char.ofNat (48 + dd % 10)] =
      [Char.ofNat (48 + y / 1000 % 10), Char.ofNat (48 + y / 100 % 10),
       Char.ofNat (48 + y / 10 % 10), Char.ofNat (48 + y % 10), '-',
       Char.ofNat (48 + m / 10 % 10), Char.ofNat (48 + m % 10), '-',
       Char.ofNat (48 + dd / 10 % 10), Char.ofNat (48 + dd % 10)] from rfl, hdate]
  simp only [Option.bind_eq_bind, Option.some_bind, List.length_cons,
    List.length_nil]
  rw [if_pos (by norm_num)]
  unfold mkDatetime
  rw [if_pos]
  exact ⟨hy1, hy2, hm1, hm2, hd1, hd2, by omega, by omega, by omega, by omega⟩

/-- Counterexample to C9 as stated: a `null` input yields an absent value
but does NOT log a warning — `_parse_date` returns before reaching the
warning branch, which only an unparseable string hits. -/
theorem parse_date_null_silent :
    _parse_date .pynone = (none, false) ∧ _parse_date .pynone ≠ (none, true) := by
  exact ⟨rfl, by decide⟩

/-- C9 (amended): `_parse_date` is total (it is a function; every failure
of the underlying parsers is caught).  A `null` input yields an absent
value silently.  A string accepted by `fromisoformat` — with or without a
trailing `Z`, which the `Z → +00:00` replacement normalizes to a UTC
offset — yields the parsed datetime, as does a plain `YYYY-MM-DD` date
string (via either parser) and any string the `%Y-%m-%d` fallback
accepts; a string in neither format yields an absent value with a
warning logged. -/
theorem parse_date_accepted_formats :
    _parse_date .pynone = (none, false) ∧
    (∀ cs d, 'Z' ∉ cs → fromisoCore cs = some d →
      _parse_date (.pystr ⟨cs⟩) = (some d, false)) ∧
    (∀ cs d, 'Z' ∉ cs →
      fromisoCore (cs ++ ('+' :: '0' :: '0' :: ':' :: '0' :: '0' :: [])) = some d →
      _parse_date (.pystr ⟨cs ++ ['Z']⟩) = (some d, false)) ∧
    (∀ y m dd, 1 ≤ y → y ≤ 9999 → 1 ≤ m → m ≤ 12 → 1 ≤ dd → dd ≤ daysInMonth y m →
      _parse_date (.pystr (renderYmd y m dd)) =
        (some ⟨y, m, dd, 0, 0, 0, 0, none⟩, false)) ∧
    (∀ s d, fromisoformat (pyReplaceZ s) = none → strptimeYmd s = some d →
      _parse_date (.pystr s) = (some d, false)) ∧
    (∀ s, fromisoformat (pyReplaceZ s) = none → strptimeYmd s = none →
      _parse_date (.pystr s) = (none, true)) := by
  refine ⟨rfl, ?_, ?_, ?_, ?_, ?_⟩
  · intro cs d hz hiso
    have hrep : pyReplaceZ ⟨cs⟩ = ⟨cs⟩ := by
      unfold pyReplaceZ
      rw [show (⟨cs⟩ : String).toList = cs from rfl, replaceZ_of_not_mem hz]
    simp only [_parse_date, hrep]
    rw [show fromisoformat ⟨cs⟩ = fromisoCore cs from rfl, hiso]
  · intro cs d hz hiso
    have hrep : pyReplaceZ ⟨cs ++ ['Z']⟩ =
        ⟨cs ++ ('+' :: '0' :: '0' :: ':' :: '0' :: '0' :: [])⟩ := by
      unfold pyReplaceZ
      rw [show (⟨cs ++ ['Z']⟩ : String).toList = cs ++ ['Z'] from rfl,
        replaceZ_append_Z hz]
    simp only [_parse_date, hrep]
    rw [show fromisoformat ⟨cs ++ ('+' :: '0' :: '0' :: ':' :: '0' :: '0' :: [])⟩ =
      fromisoCore (cs ++ ('+' :: '0' :: '0' :: ':' :: '0' :: '0' :: [])) from rfl, hiso]
  · intro y m dd hy1 hy2 hm1 hm2 hd1 hd2
    have hz : 'Z' ∉ (renderYmd y m dd).toList := by
      rw [show (renderYmd y m dd).toList =
        [Char.ofNat (48 + y / 1000 % 10), Char.ofNat (48 + y / 100 % 10),
         Char.ofNat (48 + y / 10 % 10), Char.ofNat (48 + y % 10), '-',
         Char.ofNat (48 + m / 10 % 10), Char.ofNat (48 + m % 10), '-',
         Char.ofNat (48 + dd / 10 % 10), Char.ofNat (48 + dd % 10)] from rfl]
      simp only [List.mem_cons, List.not_mem_nil, or_false]
      push_neg
      exact ⟨digitChar_ne_Z _ (by omega), digitChar_ne_Z _ (by omega),
        digitChar_ne_Z _ (by omega), digitChar_ne_Z _ (by omega), by decide,
        digitChar_ne_Z _ (by omega), digitChar_ne_Z _ (by omega), by decide,
        digitChar_ne_Z _ (by omega), digitChar_ne_Z _ (by omega)⟩
    have hrep : pyReplaceZ (renderYmd y m dd) = renderYmd y m dd := by
      unfold pyReplaceZ
      rw [replaceZ_of_not_mem hz]
      rfl
    simp only [_parse_date, hrep]
    rw [show fromisoformat (renderYmd y m dd) =
      fromisoCore (renderYmd y m dd).toList from rfl,
      fromisoCore_renderYmd y m dd hy1 hy2 hm1 hm2 hd1 hd2]
  · intro s d hiso hstr
    simp only [_parse_date, hiso, hstr]
  · intro s hiso hstr
    simp only [_parse_date, hiso, hstr]

/-- Witness for C9: a Z-suffixed ISO timestamp parses to a UTC-offset
datetime, and the padded rendering of 2024-01-15 parses to midnight. -/
theorem parse_date_accepted_formats_witness :
    _parse_date (.pystr ⟨"2024-01-15T10:00:00".toList ++ ['Z']⟩) =
      (some ⟨2024, 1, 15, 10, 0, 0, 0, some 0⟩, false) ∧
    _parse_date (.pystr (renderYmd 2024 1 15)) =
      (some ⟨2024, 1, 15, 0, 0, 0, 0, none⟩, false) :=
  ⟨parse_date_accepted_formats.2.2.1 "2024-01-15T10:00:00".toList
      ⟨2024, 1, 15, 10, 0, 0, 0, some 0⟩ (by decide) (by decide),
   parse_date_accepted_formats.2.2.2.1 2024 1 15 (by decide) (by decide)
      (by decide) (by decide) (by decide) (by decide)⟩
